import Mathlib

/-!
A shallow embedding of the alignment-pipeline builder in
`CGATPipelines/PipelineMapping.py`: the `Mapper` base class
(`preprocess`, `mapper`, `postprocess`, `cleanup`, `build`) and the
concrete strategies `Counter`, `FastQc`, `Sailfish` and `BWA`.

Conventions of the embedding:

* Python exceptions are modelled with `Except PyErr`; each constructor of
  `PyErr` corresponds to the Python exception type raised by the source,
  carrying its message where the message identifies the error.
* Python `%`-dictionary string formatting (`template % locals()`) is
  modelled by `pyFormat`, an executable interpreter of the format string
  over an association list standing in for `locals()`.  This keeps the
  source's formatting errors (an undefined key, a placeholder missing its
  conversion character) observable.
* Multi-line shell command templates from the source are transcribed with
  each source line trimmed and the lines joined by single spaces; the
  templates' tokens, placeholders, escapes and terminators are kept
  exactly.  No property proved below depends on intra-fragment runs of
  whitespace.
* Functions of the host environment (the filesystem, format sniffing of
  fastq files, peeking into sra archives, fresh temporary-directory
  allocation) are parameters, collected in the `Env` structure.
-/

/-- Python exception outcomes of the builder, by exception type;
`valueError` and `notImplementedError` carry the source's message. -/
inductive PyErr where
  | assertionError : PyErr
  | valueError : String → PyErr
  | notImplementedError : String → PyErr
  | keyError : String → PyErr
  | incompleteFormat : PyErr
  | nameError : String → PyErr
  deriving Repr, DecidableEq

/-- Scanner state of the `%`-formatting interpreter: plain text, just after
a `%`, inside the parenthesised key (characters accumulated reversed), or
just after the key's closing parenthesis awaiting a conversion character. -/
inductive FmtMode where
  | text : FmtMode
  | afterPct : FmtMode
  | inKey : List Char → FmtMode
  | afterKey : String → FmtMode
  deriving Repr, DecidableEq

/-- Python `%`-dict formatting (`template % locals()`), restricted to the
forms the source uses: `%%` is an escaped percent, `%(name)s` substitutes
the mapping's value (a missing name raises `KeyError`), a placeholder left
unfinished because the template ends raises `ValueError: incomplete
format`, and any other conversion character on a string value raises an
error. -/
def pyFormat (env : String → Option String) : FmtMode → List Char → Except PyErr (List Char)
  | .text, [] => .ok []
  | .text, '%' :: cs => pyFormat env .afterPct cs
  | .text, c :: cs => (c :: ·) <$> pyFormat env .text cs
  | .afterPct, '%' :: cs => ('%' :: ·) <$> pyFormat env .text cs
  | .afterPct, '(' :: cs => pyFormat env (.inKey []) cs
  | .afterPct, [] => .error .incompleteFormat
  | .afterPct, _ => .error (.valueError "unsupported format character")
  | .inKey acc, ')' :: cs => pyFormat env (.afterKey ⟨acc.reverse⟩) cs
  | .inKey acc, c :: cs => pyFormat env (.inKey (c :: acc)) cs
  | .inKey _, [] => .error .incompleteFormat
  | .afterKey k, 's' :: cs =>
    match env k with
    | none => .error (.keyError k)
    | some v => (v.data ++ ·) <$> pyFormat env .text cs
  | .afterKey _, [] => .error .incompleteFormat
  | .afterKey _, _ => .error (.valueError "unsupported format character")

deriving instance DecidableEq for Except

/-- Association-list lookup standing in for Python `locals()`. -/
def lookupEnv (xs : List (String × String)) (k : String) : Option String :=
  match xs with
  | [] => none
  | (k', v) :: rest => if k = k' then some v else lookupEnv rest k

/-- `pyFormat` applied to a template string and a `locals()` list. -/
def fmt (tmpl : String) (locs : List (String × String)) : Except PyErr String :=
  (fun l => ⟨l⟩) <$> pyFormat (lookupEnv locs) .text tmpl.data

/-- `str.endswith` (kernel-computable form of `String.endsWith`). -/
def endsWithS (s suffix : String) : Bool :=
  suffix.data.isSuffixOf s.data

/-- Whitespace for `str.strip`. -/
def isWS (c : Char) : Bool :=
  c = ' ' ∨ c = '\t' ∨ c = '\n' ∨ c = '\r'

/-- Python `str.strip()`: remove leading and trailing whitespace. -/
def stripS (s : String) : String :=
  ⟨((s.data.dropWhile isWS).reverse.dropWhile isWS).reverse⟩

/-- `os.path.basename`: the final path component (everything after the last
slash). -/
def basename (s : String) : String :=
  ⟨((s.data.reverse.takeWhile (fun c => ¬ c = '/'))).reverse⟩

/-- `os.path.splitext(s)[0]` on a path without directory separators:
everything before the final dot, except that leading dots of the name do
not split (Python keeps them with the root). -/
def splitextRoot (s : String) : String :=
  let leading := (s.data.takeWhile (fun c => c = '.')).length
  let rev := s.data.reverse
  let afterDot := rev.takeWhile (fun c => ¬ c = '.')
  if afterDot.length = s.data.length then s
  else
    let stemLen := s.data.length - afterDot.length - 1
    if stemLen ≤ leading then s
    else ⟨s.data.take stemLen⟩

/-- Modelled from the source's use of `CGATPipelines.Pipeline.snip` (the
`Pipeline` module is not part of the sources given): strip `suffix` from
the end of `s`, raising `ValueError` when `s` does not end with it. -/
def snip (s suffix : String) : Except PyErr String :=
  if endsWithS s suffix then .ok (s.dropRight suffix.length)
  else .error (.valueError "snip: unexpected extension")

/-- Number of positions of `s` at which `pat` occurs as a substring. -/
def countOcc (pat : List Char) : List Char → Nat
  | [] => if pat = [] then 1 else 0
  | c :: rest => (if pat.isPrefixOf (c :: rest) then 1 else 0) + countOcc pat rest

/-- `countOcc` on strings. -/
def countOccS (pat s : String) : Nat := countOcc pat.data s.data

/-- Substring presence, via `countOcc`. -/
def containsSub (s pat : String) : Bool := 0 < countOccS pat s

/-- `d` is `p` itself or an ancestor directory of `p` (so that
`rm -rf d` would remove `p`). -/
def isPathPrefix (d p : String) : Bool :=
  p = d || (d ++ "/").data.isPrefixOf p.data

/-- Lexicographic comparison of character lists by code point (kernel
computable form of the order Python `sorted` uses on ASCII names). -/
def listLe : List Char → List Char → Bool
  | [], _ => true
  | _ :: _, [] => false
  | a :: as, b :: bs =>
    if a.toNat < b.toNat then true
    else if b.toNat < a.toNat then false
    else listLe as bs

/-- Insert a string into a sorted list (helper of `sortStrings`). -/
def insertSorted (x : String) : List String → List String
  | [] => [x]
  | y :: ys => if listLe x.data y.data then x :: y :: ys else y :: insertSorted x ys

/-- Python `sorted` on a list of strings (insertion sort). -/
def sortStrings : List String → List String
  | [] => []
  | x :: xs => insertSorted x (sortStrings xs)

/-- The host environment `Mapper.preprocess` consults: file existence
(`os.path.exists`), quality-format sniffing of a fastq file
(`CGAT.Fastq.guessFormat` on the opened file), peeking into an sra archive
(`CGAT.Sra.peek`, returning the contained file names and the quality
format), and the extraction command for an sra archive
(`CGAT.Sra.extract infile tmpdir`). -/
structure Env where
  fileExists : String → Bool
  guessFormat : String → String
  sraPeek : String → List String × String
  sraExtract : String → String → String

/-- The class attributes of `Mapper` that `preprocess` branches on. -/
structure MapperCfg where
  compress : Bool := false
  convert : Bool := false
  preserve_colourspace : Bool := false
  datatype : String := "fastq"


/-! ### Command templates of `Mapper.preprocess`

Transcribed from `PipelineMapping.py` lines 419-659.  Each multi-line
Python template is given with its lines trimmed and joined by single
spaces; `%%` escapes (placeholders left for the later global substitution
pass) and every `%(name)` placeholder are kept exactly, including the
placeholder at the end of `csConvertT` (source line 576) whose conversion
character is missing in the source. -/

/-- Template of the `.export.txt.gz` branch (lines 452-461). -/
def exportT : String :=
  "gunzip < %(infile)s | awk '$11 != \"QC\" || $10 ~ /(\\d+):(\\d+):(\\d+)/ \x7bif ($1 != \"\") \x7breadname=sprintf(\"%%%%s_%%%%s:%%%%s:%%%%s:%%%%s:%%%%s\", $1, $2, $3, $4, $5, $6);\x7d else \x7breadname=sprintf(\"%%%%s:%%%%s:%%%%s:%%%%s:%%%%s\", $1, $3, $4, $5, $6);\x7d printf(\"@%%%%s\\n%%%%s\\n+\\n%%%%s\\n\",readname,$9,$10);\x7d' %(compress_cmd)s > %(tmpdir_fastq)s/%(track)s.fastq%(extension)s"

/-- Template of the `.fa.gz` branch (lines 466-467). -/
def faT : String :=
  "gunzip < %(infile)s %(compress_cmd)s > %(tmpdir_fastq)s/%(track)s.fa"

/-- Template of the `.sra` single-end conversion (lines 493-500). -/
def sraConv1T : String :=
  "gunzip < %(infile)s | python %%(scriptsdir)s/fastq2fastq.py --method=change-format --target-format=sanger --guess-format=phred64 --log=%(outfile)s.log %(compress_cmd)s > %(tmpdir_fastq)s/%(track)s_converted.fastq%(extension)s"

/-- Template of the `.sra` paired-end conversion (lines 512-524). -/
def sraConv2T : String :=
  "gunzip < %(infile)s | python %%(scriptsdir)s/fastq2fastq.py --method=change-format --target-format=sanger --guess-format=phred64 --log=%(outfile)s.log %(compress_cmd)s > %(tmpdir_fastq)s/%(track)s_converted.1.fastq%(extension)s; gunzip < %(infile2)s | python %%(scriptsdir)s/fastq2fastq.py --method=change-format --target-format=sanger --guess-format=phred64 --log=%(outfile)s.log %(compress_cmd)s > %(tmpdir_fastq)s/%(track)s_converted.2.fastq%(extension)s"

/-- Template of the `.fastq.gz` quality conversion (lines 538-544). -/
def fastqConvT : String :=
  "gunzip < %(infile)s | python %%(scriptsdir)s/fastq2fastq.py --method=change-format --target-format=sanger --guess-format=phred64 --log=%(outfile)s.log %(compress_cmd)s > %(tmpdir_fastq)s/%(track)s.fastq%(extension)s"

/-- Template copying the reads file in the colour-space preserving branch
(lines 559-560). -/
def csPreserveReadT : String :=
  "gunzip < %(infile)s > %(tmpdir_fastq)s/%(track)s.csfasta%(extension)s"

/-- Template copying the quality file in the colour-space preserving branch
(lines 562-563). -/
def csPreserveQualT : String :=
  "gunzip < %(quality)s > %(tmpdir_fastq)s/%(track)s.qual%(extension)s"

/-- Template of the single-end colour-space conversion (lines 573-576).
The final placeholder is `%(extension)` with no conversion character, as
in the source. -/
def csConvertT : String :=
  "solid2fastq <(gunzip < %(infile)s) <(gunzip < %(quality)s) %(compress_cmd)s > %(tmpdir_fastq)s/%(track)s.fastq%(extension)"

/-- Template extracting one of the four files in the paired colour-space
preserving branch (lines 594-597). -/
def f3GunzipT : String :=
  "gunzip < %(fn)s.gz %(compress_cmd)s > %(tmpdir_fastq)s/%(track)s.%(suffix)s%(extension)s"

/-- Template of the paired colour-space conversion (lines 607-610). -/
def f3ConvertT : String :=
  "solid2fastq <(gunzip < %(infile)s) <(gunzip < %(quality)s) %(compress_cmd)s > %(tmpdir_fastq)s/%(track)s.fastq%(extension)s"

/-- Template of the paired `.fastq.1.gz` quality conversion
(lines 627-641). -/
def pairConvT : String :=
  "gunzip < %(infile)s | python %%(scriptsdir)s/fastq2fastq.py --method=change-format --target-format=sanger --guess-format=phred64 --log=%(outfile)s.log %(compress_cmd)s > %(tmpdir_fastq)s/%(track)s.1.fastq%(extension)s; gunzip < %(infile2)s | python %%(scriptsdir)s/fastq2fastq.py --method=change-format --target-format=sanger --guess-format=phred64 --log=%(outfile)s.log %(compress_cmd)s > %(tmpdir_fastq)s/%(track)s.2.fastq%(extension)s"

/-- The per-iteration mutable state of `Mapper.preprocess`: the statement
list, the collected file groups, and the two locals the loop can rebind
across iterations (`track`, reassigned in the sra branch) and the instance
attribute `self.datatype` (reassigned in the fasta and colour-space
branches). -/
structure PreState where
  statement : List String
  fastqfiles : List (List String)
  track : String
  datatype : String
  deriving Repr, DecidableEq

/-- One iteration of the inner loop of the paired colour-space preserving
branch (lines 587-602): check the companion file exists, record its
extraction command, and collect the extracted path into the group. -/
def f3Step (env : Env) (bn compress_cmd tmpdir_fastq track extension : String)
    (acc : List String × List String) (suffix : String) :
    Except PyErr (List String × List String) := do
  let fn ← fmt "%(bn)s.%(suffix)s" [("bn", bn), ("suffix", suffix)]
  if ¬ env.fileExists (fn ++ ".gz") then
    throw (.valueError ("expected file " ++ fn ++ ".gz missing"))
  else
    let stmt ← fmt f3GunzipT [("fn", fn), ("compress_cmd", compress_cmd),
      ("tmpdir_fastq", tmpdir_fastq), ("track", track),
      ("suffix", suffix), ("extension", extension)]
    let entry ← fmt "%(tmpdir_fastq)s/%(track)s.%(suffix)s%(extension)s"
      [("tmpdir_fastq", tmpdir_fastq), ("track", track),
       ("suffix", suffix), ("extension", extension)]
    return (acc.1 ++ [stmt], acc.2 ++ [entry])

/-- The `.export.txt.gz` branch (lines 450-463): convert the tabular
single-end export to fastq, collecting a 1-file group. -/
def exportBranch (tmpdir_fastq compress_cmd extension : String)
    (st : PreState) (infile : String) : Except PyErr PreState := do
  let stmt ← fmt exportT [("infile", infile), ("compress_cmd", compress_cmd),
    ("tmpdir_fastq", tmpdir_fastq), ("track", st.track), ("extension", extension)]
  return { st with
      statement := st.statement ++ [stmt],
      fastqfiles := st.fastqfiles ++
      [[tmpdir_fastq ++ "/" ++ st.track ++ ".fastq" ++ extension]]
      }

/-- The `.fa.gz` branch (lines 464-469): extract the fasta file, collect a
1-file group and set the datatype to fasta. -/
def faBranch (tmpdir_fastq compress_cmd : String)
    (st : PreState) (infile : String) : Except PyErr PreState := do
  let stmt ← fmt faT [("infile", infile), ("compress_cmd", compress_cmd),
    ("tmpdir_fastq", tmpdir_fastq), ("track", st.track)]
  return { st with
      statement := st.statement ++ [stmt],
      fastqfiles := st.fastqfiles ++ [[tmpdir_fastq ++ "/" ++ st.track ++ ".fa"]],
      datatype := "fasta"
      }

/-- The `.sra` branch (lines 471-532): peek into the archive, record the
extraction command, and, when quality conversion applies, convert the one
or two extracted files; otherwise collect the extracted files as one
group.  Peeking at a single- or two-file archive while converting rebinds
the loop-carried `track`. -/
def sraBranch (env : Env) (cfg : MapperCfg)
    (tmpdir_fastq outfile compress_cmd extension : String)
    (st : PreState) (infile : String) : Except PyErr PreState := do
  let (f, format) := env.sraPeek infile
  let st := { st with statement := st.statement ++ [env.sraExtract infile tmpdir_fastq] }
  let sra_extraction_files := (sortStrings f).map
    (fun x => tmpdir_fastq ++ "/" ++ basename x)
  if containsSub format "sanger" ∧ cfg.convert then
    match sra_extraction_files with
    | [infile] =>
      let track := splitextRoot (basename infile)
      let stmt ← fmt sraConv1T [("infile", infile), ("outfile", outfile),
        ("compress_cmd", compress_cmd), ("tmpdir_fastq", tmpdir_fastq),
        ("track", track), ("extension", extension)]
      let grp ← fmt "%(tmpdir_fastq)s/%(track)s_converted.fastq%(extension)s"
        [("tmpdir_fastq", tmpdir_fastq), ("track", track), ("extension", extension)]
      return { st with
          statement := st.statement ++ [stmt],
          fastqfiles := st.fastqfiles ++ [[grp]], track := track
          }
    | [infile, infile2] =>
      let track := splitextRoot (basename infile)
      let stmt ← fmt sraConv2T [("infile", infile), ("infile2", infile2),
        ("outfile", outfile), ("compress_cmd", compress_cmd),
        ("tmpdir_fastq", tmpdir_fastq), ("track", track), ("extension", extension)]
      return { st with
          statement := st.statement ++ [stmt],
          fastqfiles := st.fastqfiles ++
          [[tmpdir_fastq ++ "/" ++ track ++ "_converted.1.fastq" ++ extension,
          tmpdir_fastq ++ "/" ++ track ++ "_converted.2.fastq" ++ extension]],
          track := track
          }
    | _ =>
      return st
  else
    return { st with
        fastqfiles := st.fastqfiles ++ [sra_extraction_files]
        }

/-- The `.fastq.gz` branch (lines 534-551): convert the quality scores
when requested and the file is not sanger, else keep the file; either way
a 1-file group. -/
def fastqBranch (env : Env) (cfg : MapperCfg)
    (tmpdir_fastq outfile compress_cmd extension : String)
    (st : PreState) (infile : String) : Except PyErr PreState := do
  let format := env.guessFormat infile
  if ¬ containsSub format "sanger" ∧ cfg.convert then
    let stmt ← fmt fastqConvT [("infile", infile), ("outfile", outfile),
      ("compress_cmd", compress_cmd), ("tmpdir_fastq", tmpdir_fastq),
      ("track", st.track), ("extension", extension)]
    return { st with
        statement := st.statement ++ [stmt],
        fastqfiles := st.fastqfiles ++
        [[tmpdir_fastq ++ "/" ++ st.track ++ ".fastq" ++ extension]]
        }
  else
    return { st with
        fastqfiles := st.fastqfiles ++ [[infile]]
        }

/-- The `.csfasta.gz` branch (lines 553-579): with
`preserve_colourspace`, keep the reads plus the companion quality file as
a 2-file group (a missing quality file is an error) and set the solid
datatype; without it, fill the conversion template `csConvertT`. -/
def csfastaBranch (env : Env) (cfg : MapperCfg)
    (tmpdir_fastq compress_cmd extension : String)
    (st : PreState) (infile : String) : Except PyErr PreState := do
  if cfg.preserve_colourspace then
    let base ← snip infile ".csfasta.gz"
    let quality := base ++ ".qual.gz"
    if ¬ env.fileExists quality then
      throw (.valueError ("no quality file for " ++ infile))
    else
      let stmt1 ← fmt csPreserveReadT [("infile", infile),
        ("tmpdir_fastq", tmpdir_fastq), ("track", st.track), ("extension", extension)]
      let stmt2 ← fmt csPreserveQualT [("quality", quality),
        ("tmpdir_fastq", tmpdir_fastq), ("track", st.track), ("extension", extension)]
      return { st with
          statement := st.statement ++ [stmt1, stmt2],
          fastqfiles := st.fastqfiles ++
          [[tmpdir_fastq ++ "/" ++ st.track ++ ".csfasta" ++ extension,
          tmpdir_fastq ++ "/" ++ st.track ++ ".qual" ++ extension]],
          datatype := "solid"
          }
  else
    let base ← snip infile ".csfasta.gz"
    let quality := base ++ ".qual.gz"
    let stmt ← fmt csConvertT [("infile", infile), ("quality", quality),
      ("compress_cmd", compress_cmd), ("tmpdir_fastq", tmpdir_fastq),
      ("track", st.track), ("extension", extension)]
    return { st with
        statement := st.statement ++ [stmt],
        fastqfiles := st.fastqfiles ++
        [[tmpdir_fastq ++ "/" ++ st.track ++ ".fastq" ++ extension]]
        }

/-- The `.csfasta.F3.gz` branch (lines 581-613): with
`preserve_colourspace`, collect the four read/quality files as one group;
without it, the source snips the suffix `.csfasta.gz` off a file that ends
in `.csfasta.F3.gz`, which raises. -/
def csfastaF3Branch (env : Env) (cfg : MapperCfg)
    (tmpdir_fastq compress_cmd extension : String)
    (st : PreState) (infile : String) : Except PyErr PreState := do
  if cfg.preserve_colourspace then
    let bn ← snip infile ".csfasta.F3.gz"
    let (stmts, fgroup) ←
      ["csfasta.F3", "csfasta.F5", "qual.F3", "qual.F5"].foldlM
        (f3Step env bn compress_cmd tmpdir_fastq st.track extension) ([], [])
    return { st with
        statement := st.statement ++ stmts,
        fastqfiles := st.fastqfiles ++ [fgroup], datatype := "solid"
        }
  else
    let base ← snip infile ".csfasta.gz"
    let quality := base ++ ".qual.gz"
    let stmt ← fmt f3ConvertT [("infile", infile), ("quality", quality),
      ("compress_cmd", compress_cmd), ("tmpdir_fastq", tmpdir_fastq),
      ("track", st.track), ("extension", extension)]
    return { st with
        statement := st.statement ++ [stmt],
        fastqfiles := st.fastqfiles ++
        [[tmpdir_fastq ++ "/" ++ st.track ++ ".fastq" ++ extension]]
        }

/-- The `.fastq.1.gz` branch (lines 615-650): require the mate-2 file to
exist (else the missing-mate `ValueError`), then either convert both mates
or keep them, a 2-file group either way. -/
def fastq1Branch (env : Env)
    (tmpdir_fastq outfile compress_cmd extension : String)
    (st : PreState) (infile : String) : Except PyErr PreState := do
  let bn ← snip infile ".fastq.1.gz"
  let infile2 := bn ++ ".fastq.2.gz"
  if ¬ env.fileExists infile2 then
    throw (.valueError
      ("can not find paired ended file '" ++ infile2 ++ "' for '" ++ infile ++ "'"))
  else
    let format := env.guessFormat infile
    if ¬ containsSub format "sanger" then
      let stmt ← fmt pairConvT [("infile", infile), ("infile2", infile2),
        ("outfile", outfile), ("compress_cmd", compress_cmd),
        ("tmpdir_fastq", tmpdir_fastq), ("track", st.track), ("extension", extension)]
      return { st with
          statement := st.statement ++ [stmt],
          fastqfiles := st.fastqfiles ++
          [[tmpdir_fastq ++ "/" ++ st.track ++ ".1.fastq" ++ extension,
          tmpdir_fastq ++ "/" ++ st.track ++ ".2.fastq" ++ extension]]
          }
    else
      return { st with
          fastqfiles := st.fastqfiles ++ [[infile, infile2]]
          }

/-- One iteration of the loop over `infiles` in `Mapper.preprocess`
(lines 448-653): the elif chain dispatching on the file suffix, in source
order; an unrecognized suffix raises `NotImplementedError`. -/
def processInfile (env : Env) (cfg : MapperCfg) (tmpdir_fastq outfile : String)
    (compress_cmd extension : String) (st : PreState) (infile : String) :
    Except PyErr PreState :=
  if endsWithS infile ".export.txt.gz" then
    exportBranch tmpdir_fastq compress_cmd extension st infile
  else if endsWithS infile ".fa.gz" then
    faBranch tmpdir_fastq compress_cmd st infile
  else if endsWithS infile ".sra" then
    sraBranch env cfg tmpdir_fastq outfile compress_cmd extension st infile
  else if endsWithS infile ".fastq.gz" then
    fastqBranch env cfg tmpdir_fastq outfile compress_cmd extension st infile
  else if endsWithS infile ".csfasta.gz" then
    csfastaBranch env cfg tmpdir_fastq compress_cmd extension st infile
  else if endsWithS infile ".csfasta.F3.gz" then
    csfastaF3Branch env cfg tmpdir_fastq compress_cmd extension st infile
  else if endsWithS infile ".fastq.1.gz" then
    fastq1Branch env tmpdir_fastq outfile compress_cmd extension st infile
  else
    throw (.notImplementedError ("unknown file format " ++ infile))

/-- `Mapper.preprocess` (lines 419-659): classifies each input by suffix,
records extraction and conversion commands, and returns the joined
preprocessing statement together with the collected file groups and the
final `datatype`.  `tmpdir_fastq` stands for the fresh directory
`P.getTempDir()` returned for this job. -/
def preprocess (env : Env) (cfg : MapperCfg) (tmpdir_fastq : String)
    (infiles : List String) (outfile : String) :
    Except PyErr (String × List (List String) × String) := do
  if infiles.isEmpty then
    throw .assertionError
  else
    let track := splitextRoot (basename outfile)
    let compress_cmd := if cfg.compress then "| gzip" else ""
    let extension := if cfg.compress then ".gz" else ""
    let init : PreState :=
      { statement := ["mkdir -p " ++ tmpdir_fastq], fastqfiles := [],
        track := track, datatype := cfg.datatype }
    let st ← infiles.foldlM
      (processInfile env cfg tmpdir_fastq outfile compress_cmd extension) init
    if st.fastqfiles.isEmpty then
      throw .assertionError
    else
      return (String.intercalate "; " st.statement ++ ";", st.fastqfiles, st.datatype)

/-! ### The four phases and `Mapper.build` -/

/-- `Mapper.quoteFile` (lines 406-417): wrap a compressed file in a
process substitution unless temporary files are kept compressed. -/
def quoteFile (compress : Bool) (filename : String) : String :=
  if endsWithS filename ".gz" ∧ ¬ compress then
    "<( gunzip < " ++ filename ++ " )"
  else filename

/-- `Mapper.mapper` (lines 661-664): the base class builds no mapping
statement. -/
def mapperMapper (_infiles : List (List String)) (_outfile : String) :
    Except PyErr String :=
  .ok ""

/-- `Mapper.postprocess` (lines 666-668): the base class builds no
postprocessing statement. -/
def mapperPostprocess (_infiles : List String) (_outfile : String) :
    Except PyErr String :=
  .ok ""

/-- `Mapper.cleanup` (lines 670-675): remove the temporary fastq
directory recorded by `preprocess`. -/
def mapperCleanup (tmpdir_fastq : String) : String :=
  "rm -rf " ++ tmpdir_fastq ++ ";"

/-- The assertion-and-join core of `Mapper.build` (lines 677-697), applied
to the four phase fragments once the phase calls themselves have
succeeded: the preprocess and mapper fragments must end (after `strip()`)
with `;` unconditionally, the postprocess and cleanup fragments only when
non-empty, and the four fragments are joined, all of them, by the
checkpoint barrier. -/
def buildCore (cmd_preprocess cmd_mapper cmd_postprocess cmd_clean : String) :
    Except PyErr String :=
  if ¬ endsWithS (stripS cmd_preprocess) ";" then .error .assertionError
  else if ¬ endsWithS (stripS cmd_mapper) ";" then .error .assertionError
  else if cmd_postprocess ≠ "" ∧ ¬ endsWithS (stripS cmd_postprocess) ";" then
    .error .assertionError
  else if cmd_clean ≠ "" ∧ ¬ endsWithS (stripS cmd_clean) ";" then
    .error .assertionError
  else
    .ok (String.intercalate " checkpoint; "
      [cmd_preprocess, cmd_mapper, cmd_postprocess, cmd_clean])

/-- `Mapper.build` for the base class itself: the four phases in order,
then the assertion-and-join core. -/
def buildMapper (env : Env) (cfg : MapperCfg) (tmpdir_fastq : String)
    (infiles : List String) (outfile : String) : Except PyErr String := do
  let (cmd_preprocess, mapfiles, _datatype) ←
    preprocess env cfg tmpdir_fastq infiles outfile
  let cmd_mapper ← mapperMapper mapfiles outfile
  let cmd_postprocess ← mapperPostprocess infiles outfile
  let cmd_clean := mapperCleanup tmpdir_fastq
  buildCore cmd_preprocess cmd_mapper cmd_postprocess cmd_clean

/-! ### `Counter` (lines 911-929) -/

/-- Template of `Counter.mapper` (lines 926-928). -/
def counterT : String :=
  "zcat %(x)s | awk '\x7bn+=1;\x7d END \x7bprintf(\"nreads\\t%%%%i\\n\",n/4);\x7d' >> %(outfile)s;"

/-- `Counter.mapper` (lines 917-929): one counting command per file
group. -/
def counterMapper (infiles : List (List String)) (outfile : String) :
    Except PyErr String := do
  let stmts ← infiles.mapM (fun f =>
    fmt counterT [("x", String.intercalate " " f), ("outfile", outfile)])
  return String.intercalate " " stmts

/-- `Counter.build`: `Counter` sets `compress = True` and inherits
`postprocess` and `cleanup` from `Mapper`. -/
def buildCounter (env : Env) (tmpdir_fastq : String)
    (infiles : List String) (outfile : String) : Except PyErr String := do
  let (cmd_preprocess, mapfiles, _datatype) ←
    preprocess env { compress := true } tmpdir_fastq infiles outfile
  let cmd_mapper ← counterMapper mapfiles outfile
  let cmd_postprocess ← mapperPostprocess infiles outfile
  let cmd_clean := mapperCleanup tmpdir_fastq
  buildCore cmd_preprocess cmd_mapper cmd_postprocess cmd_clean

/-! ### `FastQc` (lines 700-782) -/

/-- `re.sub(".fastq.*", "", x)`: delete from the first position whose
character is followed by the literal `fastq` to the end (the regex dot
matches any character). -/
def cutFastq : List Char → List Char
  | [] => []
  | c :: cs => if "fastq".data.isPrefixOf cs then [] else c :: cutFastq cs

/-- Template of the `nogroup` branch of `FastQc.mapper` (lines 773-776).
The final placeholder names `contaminats`, which is not a local variable
of the source function. -/
def fastqcNogroupT : String :=
  "fastqc --extract --outdir=%(outdir)s --nogroup %(x)s %(contaminants_cmd)s >& %(outfile)s ; rm -f %(contaminats)s ;"

/-- Template of the default branch of `FastQc.mapper` (lines 778-781). -/
def fastqcT : String :=
  "fastqc --extract --outdir=%(outdir)s %(x)s %(contaminants_cmd)s >& %(outfile)s ; rm -f %(contaminants)s ;"

/-- The body of the inner loop of `FastQc.mapper` (lines 764-781):
build one fastqc command for file `x`; `contaminants` is the parsed
contaminants file name, if any. -/
def fastQcStep (nogroup : Bool) (contaminants : Option String)
    (outdir outfile : String) (acc2 : List String) (x : String) :
    Except PyErr (List String) := do
  let track := basename ⟨cutFastq x.data⟩
  let contaminants_cmd :=
    match contaminants with
    | some c => "-a " ++ c
    | none => ""
  let locs := [("outdir", outdir), ("x", x),
    ("contaminants_cmd", contaminants_cmd), ("outfile", outfile),
    ("track", track),
    ("contaminants", match contaminants with | some c => c | none => "None")]
  let stmt ← fmt (if nogroup then fastqcNogroupT else fastqcT) locs
  return acc2 ++ [stmt]

/-- `FastQc.mapper` (lines 753-782): one fastqc command per file of every
group (the nested loops over groups and files), joined by spaces. -/
def fastQcMapper (nogroup : Bool) (contaminants : Option String)
    (outdir : String) (infiles : List (List String)) (outfile : String) :
    Except PyErr String := do
  let stmts ← infiles.foldlM (fun acc f =>
    f.foldlM (fastQcStep nogroup contaminants outdir outfile) acc)
    ([] : List String)
  return String.intercalate " " stmts

/-- `FastQc.build`: `FastQc` sets `compress = True` and inherits
`postprocess` and `cleanup` from `Mapper`. -/
def buildFastQc (env : Env) (nogroup : Bool) (contaminants : Option String)
    (outdir : String) (tmpdir_fastq : String)
    (infiles : List String) (outfile : String) : Except PyErr String := do
  let (cmd_preprocess, mapfiles, _datatype) ←
    preprocess env { compress := true } tmpdir_fastq infiles outfile
  let cmd_mapper ← fastQcMapper nogroup contaminants outdir mapfiles outfile
  let cmd_postprocess ← mapperPostprocess infiles outfile
  let cmd_clean := mapperCleanup tmpdir_fastq
  buildCore cmd_preprocess cmd_mapper cmd_postprocess cmd_clean

/-! ### `Sailfish` (lines 824-908) -/

/-- Final quantification template of `Sailfish.mapper` (lines 891-892). -/
def sailfishQuantT : String :=
  "-l %(library)s %(input_file)s -o %%(outdir)s -f --threads %(threads)s;"

/-- `Sailfish.mapper` (lines 836-896): dispatch on the uniform arity of
the file groups; arity 1 and 2 build a quantification command, any other
arity raises `ValueError`.  An unexpected `strand`/`orient` value leaves
the corresponding local unbound in the source, so referencing it raises
`NameError`. -/
def sailfishMapper (strand orient threads : String)
    (infiles : List (List String)) (_outfile : String) : Except PyErr String := do
  let stmt0 ← fmt "sailfish quant -i %%(index)s" []
  match infiles with
  | [] => throw (.valueError "max() arg is an empty sequence")
  | g :: gs =>
    let num_files := (g :: gs).map (fun x => x.length)
    let mx := num_files.foldl Nat.max 0
    let mn := num_files.foldl Nat.min g.length
    if mx ≠ mn then
      throw (.valueError "mixing single and paired-ended data not possible.")
    else
      let nfiles := mx
      let (input_file, library) ←
        if nfiles = 1 then
          match g with
          | [] => throw (.valueError "list index out of range")
          | x :: _ =>
            let input_file := "-r <(zcat " ++ x ++ ")"
            let strandedness ←
              if strand = "sense" then pure "S=S\""
              else if strand = "antisense" then pure "S=A\""
              else if strand = "unknown" then pure "S=U\""
              else throw (.nameError "strandedness")
            pure (input_file, "\"T=SE:" ++ strandedness)
        else if nfiles = 2 then
          match g with
          | [infile1, infile2] =>
            let input_file ← fmt "-1 <(zcat %(infile1)s) -2 <(zcat %(infile2)s)"
              [("infile1", infile1), ("infile2", infile2)]
            let orientation ←
              if orient = "towards" then pure "O=><:"
              else if orient = "away" then pure "O=<>:"
              else if orient = "same" then pure "O=>>:"
              else throw (.nameError "orientation")
            let strandedness ←
              if strand = "sense" then pure "S=SA\""
              else if strand = "antisense" then pure "S=AS\""
              else if strand = "unknown" then pure "S=U\""
              else throw (.nameError "strandedness")
            pure (input_file, "\"T=PE:" ++ orientation ++ strandedness)
          | _ => throw (.valueError "not enough values to unpack")
        else
          throw (.valueError "incorrect number of input files")
      let stmt1 ← fmt sailfishQuantT
        [("library", library), ("input_file", input_file), ("threads", threads)]
      return String.intercalate " " [stmt0, stmt1]

/-- `Sailfish.postprocess` (lines 898-908): reformat the header of the
quantification table and rename it. -/
def sailfishPostprocess (_infiles : List String) (_outfile : String) :
    Except PyErr String :=
  .ok "sed -i \"s/# Transcript/Transcript/g\" %(outdir)s/quant.sf; mv %(outdir)s/quant.sf %(outdir)s/%(sample)s_quant.sf;"

/-- `Sailfish.build`: `Sailfish.__init__` defaults `compress = True`;
`cleanup` is inherited from `Mapper`. -/
def buildSailfish (env : Env) (strand orient threads : String)
    (tmpdir_fastq : String) (infiles : List String) (outfile : String) :
    Except PyErr String := do
  let (cmd_preprocess, mapfiles, _datatype) ←
    preprocess env { compress := true } tmpdir_fastq infiles outfile
  let cmd_mapper ← sailfishMapper strand orient threads mapfiles outfile
  let cmd_postprocess ← sailfishPostprocess infiles outfile
  let cmd_clean := mapperCleanup tmpdir_fastq
  buildCore cmd_preprocess cmd_mapper cmd_postprocess cmd_clean

/-! ### `BWA` (lines 932-1055) -/

/-- Single-end alignment template of `BWA.mapper` (lines 985-992). -/
def bwaAln1T : String :=
  "bwa aln %%(bwa_aln_options)s -t %%(bwa_threads)i %(index_prefix)s %(infiles)s > %(tmpdir)s/%(track)s.sai 2>>%(outfile)s.bwa.log; bwa samse %%(bwa_index_dir)s/%%(genome)s %(tmpdir)s/%(track)s.sai %(infiles)s > %(tmpdir)s/%(track)s.sam 2>>%(outfile)s.bwa.log;"

/-- Paired-end alignment template of `BWA.mapper` (lines 1000-1011): each
mate list is aligned by its own `bwa aln` pass, then `bwa sampe` merges
the two. -/
def bwaAln2T : String :=
  "bwa aln %%(bwa_aln_options)s -t %%(bwa_threads)i %(index_prefix)s %(infiles1)s > %(tmpdir)s/%(track1)s.sai 2>>%(outfile)s.bwa.log; checkpoint; bwa aln %%(bwa_aln_options)s -t %%(bwa_threads)i %(index_prefix)s %(infiles2)s > %(tmpdir)s/%(track2)s.sai 2>>%(outfile)s.bwa.log; checkpoint; bwa sampe %%(bwa_sampe_options)s %(index_prefix)s %(tmpdir)s/%(track1)s.sai %(tmpdir)s/%(track2)s.sai %(infiles1)s %(infiles2)s > %(tmpdir)s/%(track)s.sam 2>>%(outfile)s.bwa.log;"

/-- Python list indexing `x[i]` on a file group: `IndexError` when the
group is shorter. -/
def pyIndex (x : List String) (i : Nat) : Except PyErr String :=
  match x.drop i with
  | [] => throw (.valueError "list index out of range")
  | a :: _ => .ok a

/-- `BWA.mapper` (lines 950-1018): validate the uniform arity, allocate
the aligner working directory `tmpdir_fastq + "bwa"` (string
concatenation, so a sibling of `tmpdir_fastq`, not a subdirectory), and
dispatch on the arity; the recorded working directory (`self.tmpdir`) is
returned alongside the statement.  The source also assembles a
`data_options` list from the datatype but never uses it in the
templates. -/
def bwaMapper (compress : Bool) (datatype : String) (tmpdir_fastq : String)
    (infiles : List (List String)) (outfile : String) :
    Except PyErr (String × String) := do
  match infiles with
  | [] => throw (.valueError "max() arg is an empty sequence")
  | g :: gs =>
    let num_files := (g :: gs).map (fun x => x.length)
    let mx := num_files.foldl Nat.max 0
    let mn := num_files.foldl Nat.min g.length
    if mx ≠ mn then
      throw (.valueError "mixing single and paired-ended data not possible.")
    else
      let nfiles := mx
      let tmpdir := tmpdir_fastq ++ "bwa"
      let index_prefix :=
        if datatype = "solid" then "%(bwa_index_dir)s/%(genome)s_cs"
        else "%(bwa_index_dir)s/%(genome)s"
      let track ← snip (basename outfile) ".bam"
      let aln ←
        if nfiles = 1 then do
          let quoted ← (g :: gs).mapM (fun x => do
            let a ← pyIndex x 0
            return quoteFile compress a)
          let infilesJ := String.intercalate "," quoted
          fmt bwaAln1T [("index_prefix", index_prefix), ("infiles", infilesJ),
            ("tmpdir", tmpdir), ("track", track), ("outfile", outfile)]
        else if nfiles = 2 then do
          let track1 := track ++ ".1"
          let track2 := track ++ ".2"
          let quoted1 ← (g :: gs).mapM (fun x => do
            let a ← pyIndex x 0
            return quoteFile compress a)
          let quoted2 ← (g :: gs).mapM (fun x => do
            let a ← pyIndex x 1
            return quoteFile compress a)
          let infiles1 := String.intercalate "," quoted1
          let infiles2 := String.intercalate "," quoted2
          fmt bwaAln2T [("index_prefix", index_prefix), ("infiles1", infiles1),
            ("infiles2", infiles2), ("tmpdir", tmpdir), ("track", track),
            ("track1", track1), ("track2", track2), ("outfile", outfile)]
        else
          throw (.valueError ("unexpected number read files to map: " ++ toString nfiles ++ " "))
      return (String.intercalate " " ["mkdir -p " ++ tmpdir ++ ";", aln], tmpdir)

/-- Filter fragment of `BWA.postprocess` for non-unique removal
(lines 1031-1034). -/
def bwaUniqueT : String :=
  "| python %%(scriptsdir)s/bam2bam.py --method=filter --filter-method=unique, mapped --log=%(outfile)s.log"

/-- Filter fragment of `BWA.postprocess` for sequence stripping
(lines 1037-1040). -/
def bwaStripT : String :=
  "| python %%(scriptsdir)s/bam2bam.py --strip-method=all --method=strip-sequence --log=%(outfile)s.log"

/-- Filter fragment of `BWA.postprocess` for NH-tag setting
(lines 1043-1045). -/
def bwaSetNhT : String :=
  "| python %%(scriptsdir)s/bam2bam.py --method=set-nh --log=%(outfile)s.log"

/-- Sort-and-index template of `BWA.postprocess` (lines 1047-1053). -/
def bwaPostT : String :=
  "samtools view -uS %(tmpdir)s/%(track)s.sam %(unique_cmd)s %(strip_cmd)s %(set_nh_cmd)s | samtools sort - %(outf)s 2>>%(outfile)s.bwa.log; samtools index %(outfile)s;"

/-- `BWA.postprocess` (lines 1020-1055): sort and index the alignment,
with optional filtering fragments gated by the strategy flags; `tmpdir` is
the working directory recorded by `BWA.mapper`. -/
def bwaPostprocess (remove_non_unique strip_sequence set_nh : Bool)
    (tmpdir : String) (outfile : String) : Except PyErr String := do
  let track ← snip (basename outfile) ".bam"
  let outf ← snip outfile ".bam"
  let unique_cmd ← if remove_non_unique then fmt bwaUniqueT [("outfile", outfile)]
    else pure ""
  let strip_cmd ← if strip_sequence then fmt bwaStripT [("outfile", outfile)]
    else pure ""
  let set_nh_cmd ← if set_nh then fmt bwaSetNhT [("outfile", outfile)]
    else pure ""
  fmt bwaPostT [("tmpdir", tmpdir), ("track", track), ("unique_cmd", unique_cmd),
    ("strip_cmd", strip_cmd), ("set_nh_cmd", set_nh_cmd), ("outf", outf),
    ("outfile", outfile)]

/-- `BWA.build`: preprocess (base-class flags), the BWA align phase on the
returned read set (with the datatype preprocess recorded), the BWA
postprocess on the recorded working directory, and the inherited
cleanup. -/
def buildBWA (env : Env) (remove_non_unique strip_sequence set_nh : Bool)
    (tmpdir_fastq : String) (infiles : List String) (outfile : String) :
    Except PyErr String := do
  let (cmd_preprocess, mapfiles, datatype) ←
    preprocess env {} tmpdir_fastq infiles outfile
  let (cmd_mapper, tmpdir) ← bwaMapper false datatype tmpdir_fastq mapfiles outfile
  let cmd_postprocess ← bwaPostprocess remove_non_unique strip_sequence set_nh
    tmpdir outfile
  let cmd_clean := mapperCleanup tmpdir_fastq
  buildCore cmd_preprocess cmd_mapper cmd_postprocess cmd_clean

/-! ### Shared concrete environments and fragments used by the theorems -/

/-- An environment where the mate file `b.fastq.2.gz` and the quality file
`sample.qual.gz` exist, every fastq file reports sanger qualities, and
every sra archive contains a single file. -/
def envStd : Env :=
  { fileExists := fun p => p = "b.fastq.2.gz" ∨ p = "sample.qual.gz",
    guessFormat := fun _ => "sanger",
    sraPeek := fun _ => (["x.fastq.gz"], "sanger"),
    sraExtract := fun _ _ => "" }

/-- An environment where no file exists. -/
def envNone : Env :=
  { fileExists := fun _ => false,
    guessFormat := fun _ => "sanger",
    sraPeek := fun _ => (["x.fastq.gz"], "sanger"),
    sraExtract := fun _ _ => "" }

/-- The `Counter` align fragment for `sample.fastq.gz` (the value of
`counterT` under `Counter.mapper`). -/
def c1Map : String :=
  "zcat sample.fastq.gz | awk '\x7bn+=1;\x7d END \x7bprintf(\"nreads\\t%%i\\n\",n/4);\x7d' >> sample.bam;"

/-- A file group has one of the three supported arities. -/
def arityOk (g : List String) : Prop :=
  g.length = 1 ∨ g.length = 2 ∨ g.length = 4

set_option maxRecDepth 20000

/-! ### Helper lemmas -/

theorem exbind_ok {α β : Type} {e : Except PyErr α} {k : α → Except PyErr β} {v : β}
    (h : e >>= k = .ok v) : ∃ w, e = .ok w ∧ k w = .ok v := by
  cases e with
  | error a => simp [Bind.bind, Except.bind] at h
  | ok a => exact ⟨a, rfl, by simpa [Bind.bind, Except.bind] using h⟩

theorem expure_ok {α : Type} {a v : α}
    (h : (pure a : Except PyErr α) = .ok v) : a = v := by
  simpa [pure, Except.pure] using h

theorem exthrow_ne_ok {α : Type} {e : PyErr} {v : α}
    (h : (throw e : Except PyErr α) = .ok v) : False := by
  simp [throw, throwThe, MonadExceptOf.throw] at h

theorem interc4 (sep a b c d : String) :
    String.intercalate sep [a, b, c, d] = a ++ sep ++ b ++ sep ++ c ++ sep ++ d := by
  simp [String.intercalate, String.intercalate.go]

theorem endsWithS_append (a b : String) : endsWithS (a ++ b) b = true := by
  simp [endsWithS, List.isSuffixOf_iff_suffix, String.data_append]

theorem acc_le_foldl_max (l : List Nat) : ∀ acc, acc ≤ l.foldl Nat.max acc := by
  induction l with
  | nil => simp
  | cons x xs ih =>
    intro acc
    calc acc ≤ Nat.max acc x := Nat.le_max_left _ _
    _ ≤ xs.foldl Nat.max (Nat.max acc x) := ih _

theorem le_foldl_max (l : List Nat) : ∀ (acc x : Nat), x ∈ l → x ≤ l.foldl Nat.max acc := by
  induction l with
  | nil => intro _ _ h; cases h
  | cons y ys ih =>
    intro acc x h
    rcases List.mem_cons.1 h with rfl | h
    · calc x ≤ Nat.max acc x := Nat.le_max_right _ _
      _ ≤ ys.foldl Nat.max (Nat.max acc x) := acc_le_foldl_max _ _
    · exact ih _ x h

theorem foldl_min_le_acc (l : List Nat) : ∀ acc, l.foldl Nat.min acc ≤ acc := by
  induction l with
  | nil => simp
  | cons x xs ih =>
    intro acc
    calc xs.foldl Nat.min (Nat.min acc x) ≤ Nat.min acc x := ih _
    _ ≤ acc := Nat.min_le_left _ _

theorem foldl_min_le (l : List Nat) : ∀ (acc x : Nat), x ∈ l → l.foldl Nat.min acc ≤ x := by
  induction l with
  | nil => intro _ _ h; cases h
  | cons y ys ih =>
    intro acc x h
    rcases List.mem_cons.1 h with rfl | h
    · calc ys.foldl Nat.min (Nat.min acc x) ≤ Nat.min acc x := foldl_min_le_acc _ _
      _ ≤ x := Nat.min_le_right _ _
    · exact ih _ x h

theorem foldl_max_all (n : Nat) : ∀ (l : List Nat) (acc : Nat), (∀ x ∈ l, x = n) →
    l ≠ [] → l.foldl Nat.max acc = Nat.max acc n := by
  intro l
  induction l with
  | nil => intro acc _ h; cases h rfl
  | cons y ys ih =>
    intro acc hall _
    have hy : y = n := hall y (List.mem_cons_self _ _)
    subst hy
    by_cases hys : ys = []
    · subst hys; simp
    · rw [List.foldl_cons, ih _ (fun x hx => hall x (List.mem_cons_of_mem _ hx)) hys]
      exact Nat.max_eq_left (Nat.le_max_right _ _)

theorem foldl_min_all (n : Nat) : ∀ (l : List Nat) (acc : Nat), (∀ x ∈ l, x = n) →
    l ≠ [] → l.foldl Nat.min acc = Nat.min acc n := by
  intro l
  induction l with
  | nil => intro acc _ h; cases h rfl
  | cons y ys ih =>
    intro acc hall _
    have hy : y = n := hall y (List.mem_cons_self _ _)
    subst hy
    by_cases hys : ys = []
    · subst hys; simp
    · rw [List.foldl_cons, ih _ (fun x hx => hall x (List.mem_cons_of_mem _ hx)) hys]
      exact Nat.min_eq_left (Nat.min_le_right _ _)

theorem foldlM_invariant {α β : Type} (P : β → Prop) (step : β → α → Except PyErr β)
    (hstep : ∀ st x st', P st → step st x = .ok st' → P st') :
    ∀ (l : List α) (init out : β), P init → List.foldlM step init l = .ok out → P out := by
  intro l
  induction l with
  | nil =>
    intro init out h hf
    simp only [List.foldlM] at hf
    exact (expure_ok hf) ▸ h
  | cons x xs ih =>
    intro init out h hf
    rw [List.foldlM_cons] at hf
    obtain ⟨w, hw, hf⟩ := exbind_ok hf
    exact ih w out (hstep init x w h hw) hf

theorem insertSorted_length (x : String) : ∀ (l : List String),
    (insertSorted x l).length = l.length + 1 := by
  intro l
  induction l with
  | nil => rfl
  | cons y ys ih =>
    unfold insertSorted
    split
    · simp
    · simp [ih]

theorem sortStrings_length : ∀ (l : List String), (sortStrings l).length = l.length := by
  intro l
  induction l with
  | nil => rfl
  | cons x xs ih => simp [sortStrings, insertSorted_length, ih]

/-- C1 (amended): for every strategy whose four phase calls succeed with
fragments satisfying the terminator contract, `build()` joins all four
fragments, the empty ones included, with the checkpoint barrier: no
fragment is dropped, so a barrier token is emitted even for a phase whose
fragment is the empty string. -/
theorem c1_build_joins_all_four_phases (pre mp post cl : String)
    (h1 : endsWithS (stripS pre) ";" = true)
    (h2 : endsWithS (stripS mp) ";" = true)
    (h3 : post = "" ∨ endsWithS (stripS post) ";" = true)
    (h4 : cl = "" ∨ endsWithS (stripS cl) ";" = true) :
    buildCore pre mp post cl =
      .ok (pre ++ " checkpoint; " ++ mp ++ " checkpoint; " ++ post ++
        " checkpoint; " ++ cl) := by
  rcases h3 with h3 | h3 <;> rcases h4 with h4 | h4 <;>
    simp [buildCore, h1, h2, h3, h4, interc4]

/-- Witness for C1: the amended theorem applied to concrete fragments with
an empty postprocess fragment. -/
theorem c1_build_joins_all_four_phases_witness :
    buildCore "a;" "b;" "" "rm -rf /t;" =
      .ok ("a;" ++ " checkpoint; " ++ "b;" ++ " checkpoint; " ++ "" ++
        " checkpoint; " ++ "rm -rf /t;") :=
  c1_build_joins_all_four_phases "a;" "b;" "" "rm -rf /t;"
    (by decide) (by decide) (Or.inl rfl) (Or.inr (by decide))

/-- Counterexample to C1 as stated: for the `Counter` strategy on a single
sanger fastq input, the postprocess fragment is empty, yet `build()` still
emits a barrier for it — the result differs from the join of only the
non-empty fragments. -/
theorem c1_counterexample :
    buildCounter envStd "/tmp/t" ["sample.fastq.gz"] "sample.bam" =
      .ok ("mkdir -p /tmp/t; checkpoint; " ++ c1Map ++
        " checkpoint;  checkpoint; rm -rf /tmp/t;") ∧
    counterMapper [["sample.fastq.gz"]] "sample.bam" = .ok c1Map ∧
    mapperPostprocess ["sample.fastq.gz"] "sample.bam" = .ok "" ∧
    ("mkdir -p /tmp/t; checkpoint; " ++ c1Map ++
        " checkpoint;  checkpoint; rm -rf /tmp/t;" ≠
      String.intercalate " checkpoint; "
        (List.filter (fun f => ¬ f = "")
          ["mkdir -p /tmp/t;", c1Map, "", mapperCleanup "/tmp/t"])) := by
  refine ⟨by decide, by decide, rfl, by decide⟩

/-- C3 (amended): the lone mate-2 input fails, but with the unknown-file-
format error (`NotImplementedError`), not the missing-mate error; the
missing-mate `ValueError` arises for a mate-1 input whose mate-2 file does
not exist. -/
theorem c3_mate2_alone_is_unknown_format :
    buildMapper envNone {} "/tmp/t" ["sample.fastq.2.gz"] "sample.bam" =
      .error (.notImplementedError "unknown file format sample.fastq.2.gz") ∧
    preprocess envNone {} "/tmp/t" ["sample.fastq.2.gz"] "sample.bam" =
      .error (.notImplementedError "unknown file format sample.fastq.2.gz") ∧
    preprocess envNone {} "/tmp/t" ["sample.fastq.1.gz"] "sample.bam" =
      .error (.valueError
        "can not find paired ended file 'sample.fastq.2.gz' for 'sample.fastq.1.gz'") := by
  exact ⟨by decide, by decide, by decide⟩

/-- Counterexample to C3 as stated: plan construction on
`["sample.fastq.2.gz"]` fails with the unknown-file-format
`NotImplementedError`, not with the missing-mate `ValueError`. -/
theorem c3_counterexample :
    buildMapper envNone {} "/tmp/t" ["sample.fastq.2.gz"] "sample.bam" =
      .error (.notImplementedError "unknown file format sample.fastq.2.gz") ∧
    PyErr.notImplementedError "unknown file format sample.fastq.2.gz" ≠
      PyErr.valueError
        "can not find paired ended file 'sample.fastq.1.gz' for 'sample.fastq.2.gz'" := by
  exact ⟨by decide, by decide⟩

/-- C4: evaluating the single-file colour-space branches.  Without
`preserve_colourspace` the source's conversion template (line 576) ends in
a placeholder with no conversion character, so filling it raises
`ValueError: incomplete format` instead of emitting the solid2fastq
command; with `preserve_colourspace` the original plus its quality file
are kept as a 2-file group, and a missing quality file is an error. -/
theorem c4_colourspace_template_is_malformed :
    preprocess envStd {} "/tmp/t" ["sample.csfasta.gz"] "sample.bam" =
      .error .incompleteFormat ∧
    preprocess envStd { preserve_colourspace := true } "/tmp/t"
        ["sample.csfasta.gz"] "sample.bam" =
      .ok ("mkdir -p /tmp/t; gunzip < sample.csfasta.gz > /tmp/t/sample.csfasta; gunzip < sample.qual.gz > /tmp/t/sample.qual;",
        [["/tmp/t/sample.csfasta", "/tmp/t/sample.qual"]], "solid") ∧
    preprocess envNone { preserve_colourspace := true } "/tmp/t"
        ["sample.csfasta.gz"] "sample.bam" =
      .error (.valueError "no quality file for sample.csfasta.gz") := by
  exact ⟨by decide, by decide, by decide⟩

/-- C5 (amended): `build()` fails with the assertion error exactly when the
preprocess or align fragment does not end (after `strip()`) with the
terminator — the empty string included — or when a non-empty postprocess
or cleanup fragment does not; emptiness is accepted as a no-op only for
the postprocess and cleanup phases. -/
theorem c5_build_assert_iff (pre mp post cl : String) :
    buildCore pre mp post cl = .error .assertionError ↔
      ¬ (endsWithS (stripS pre) ";" = true ∧ endsWithS (stripS mp) ";" = true ∧
         (post = "" ∨ endsWithS (stripS post) ";" = true) ∧
         (cl = "" ∨ endsWithS (stripS cl) ";" = true)) := by
  unfold buildCore
  split_ifs with a b c d <;> (simp_all; try tauto)

/-- Counterexample to C5 as stated: the base `Mapper` strategy returns the
empty align fragment, every returned fragment is either empty or
terminator-ended, yet `build()` fails fast with the assertion error. -/
theorem c5_counterexample :
    buildMapper envStd {} "/tmp/t" ["sample.fastq.gz"] "sample.bam" =
      .error .assertionError ∧
    preprocess envStd {} "/tmp/t" ["sample.fastq.gz"] "sample.bam" =
      .ok ("mkdir -p /tmp/t;", [["sample.fastq.gz"]], "fastq") ∧
    endsWithS (stripS "mkdir -p /tmp/t;") ";" = true ∧
    mapperMapper [["sample.fastq.gz"]] "sample.bam" = .ok "" ∧
    mapperPostprocess ["sample.fastq.gz"] "sample.bam" = .ok "" ∧
    mapperCleanup "/tmp/t" = "rm -rf /tmp/t;" ∧
    endsWithS (stripS (mapperCleanup "/tmp/t")) ";" = true := by
  exact ⟨by decide, by decide, by decide, rfl, rfl, rfl, by decide⟩

theorem exbind_eq_ok {α β : Type} {e : Except PyErr α} {v : α}
    (h : e = .ok v) (k : α → Except PyErr β) : (e >>= k) = k v := by
  subst h; rfl

theorem fmt_csConvert_err (a b c d e f : String) :
    fmt csConvertT [("infile", a), ("quality", b), ("compress_cmd", c),
      ("tmpdir_fastq", d), ("track", e), ("extension", f)] =
      .error .incompleteFormat := rfl

theorem f3Step_length (env : Env) (bn cc td tr ext : String)
    (acc : List String × List String) (suffix : String)
    (out : List String × List String)
    (h : f3Step env bn cc td tr ext acc suffix = .ok out) :
    out.2.length = acc.2.length + 1 := by
  unfold f3Step at h
  obtain ⟨fn, hfn, h⟩ := exbind_ok h
  split at h
  · exact (exthrow_ne_ok h).elim
  · obtain ⟨stmt, hs, h⟩ := exbind_ok h
    obtain ⟨entry, he, h⟩ := exbind_ok h
    have hh := expure_ok h
    subst hh
    simp

theorem f3_fold_length (env : Env) (bn cc td tr ext : String) :
    ∀ (l : List String) (acc out : List String × List String),
    List.foldlM (f3Step env bn cc td tr ext) acc l = .ok out →
    out.2.length = acc.2.length + l.length := by
  intro l
  induction l with
  | nil =>
    intro acc out h
    simp only [List.foldlM] at h
    have hh := expure_ok h
    subst hh
    simp
  | cons x xs ih =>
    intro acc out h
    rw [List.foldlM_cons] at h
    obtain ⟨w, hw, h⟩ := exbind_ok h
    have h1 := f3Step_length env bn cc td tr ext acc x w hw
    have h2 := ih w out h
    simp only [List.length_cons]
    omega

theorem exportBranch_arity (td cc ext : String) (st : PreState) (infile : String)
    (st' : PreState) (hst : ∀ g ∈ st.fastqfiles, arityOk g)
    (h : exportBranch td cc ext st infile = .ok st') :
    ∀ g ∈ st'.fastqfiles, arityOk g := by
  unfold exportBranch at h
  obtain ⟨stmt, hs, h⟩ := exbind_ok h
  have hh := expure_ok h
  subst hh
  intro g hg
  rcases List.mem_append.1 hg with hg | hg
  · exact hst g hg
  · simp at hg
    subst hg
    simp [arityOk]

theorem faBranch_arity (td cc : String) (st : PreState) (infile : String)
    (st' : PreState) (hst : ∀ g ∈ st.fastqfiles, arityOk g)
    (h : faBranch td cc st infile = .ok st') :
    ∀ g ∈ st'.fastqfiles, arityOk g := by
  unfold faBranch at h
  obtain ⟨stmt, hs, h⟩ := exbind_ok h
  have hh := expure_ok h
  subst hh
  intro g hg
  rcases List.mem_append.1 hg with hg | hg
  · exact hst g hg
  · simp at hg
    subst hg
    simp [arityOk]

theorem sraBranch_arity (env : Env) (cfg : MapperCfg) (td outfile cc ext : String)
    (st : PreState) (infile : String) (st' : PreState)
    (hsra : (env.sraPeek infile).1.length = 1 ∨ (env.sraPeek infile).1.length = 2)
    (hst : ∀ g ∈ st.fastqfiles, arityOk g)
    (h : sraBranch env cfg td outfile cc ext st infile = .ok st') :
    ∀ g ∈ st'.fastqfiles, arityOk g := by
  unfold sraBranch at h
  rcases hp : env.sraPeek infile with ⟨f, fm⟩
  rw [hp] at h hsra
  dsimp only at h hsra
  split at h
  · split at h
    · obtain ⟨stmt, hs, h⟩ := exbind_ok h
      obtain ⟨grp, hgrp, h⟩ := exbind_ok h
      have hh := expure_ok h
      subst hh
      intro g hg
      rcases List.mem_append.1 hg with hg | hg
      · exact hst g hg
      · simp at hg
        subst hg
        simp [arityOk]
    · obtain ⟨stmt, hs, h⟩ := exbind_ok h
      have hh := expure_ok h
      subst hh
      intro g hg
      rcases List.mem_append.1 hg with hg | hg
      · exact hst g hg
      · simp at hg
        subst hg
        simp [arityOk]
    · have hh := expure_ok h
      subst hh
      exact hst
  · have hh := expure_ok h
    subst hh
    intro g hg
    rcases List.mem_append.1 hg with hg | hg
    · exact hst g hg
    · simp at hg
      subst hg
      have hlen : ((sortStrings f).map
          (fun x => td ++ "/" ++ basename x)).length = f.length := by
        rw [List.length_map, sortStrings_length]
      rcases hsra with h1 | h2
      · exact Or.inl (hlen.trans h1)
      · exact Or.inr (Or.inl (hlen.trans h2))

theorem fastqBranch_arity (env : Env) (cfg : MapperCfg) (td outfile cc ext : String)
    (st : PreState) (infile : String) (st' : PreState)
    (hst : ∀ g ∈ st.fastqfiles, arityOk g)
    (h : fastqBranch env cfg td outfile cc ext st infile = .ok st') :
    ∀ g ∈ st'.fastqfiles, arityOk g := by
  unfold fastqBranch at h
  dsimp only at h
  split at h
  · obtain ⟨stmt, hs, h⟩ := exbind_ok h
    have hh := expure_ok h
    subst hh
    intro g hg
    rcases List.mem_append.1 hg with hg | hg
    · exact hst g hg
    · simp at hg
      subst hg
      simp [arityOk]
  · have hh := expure_ok h
    subst hh
    intro g hg
    rcases List.mem_append.1 hg with hg | hg
    · exact hst g hg
    · simp at hg
      subst hg
      simp [arityOk]

theorem csfastaBranch_arity (env : Env) (cfg : MapperCfg) (td cc ext : String)
    (st : PreState) (infile : String) (st' : PreState)
    (hst : ∀ g ∈ st.fastqfiles, arityOk g)
    (h : csfastaBranch env cfg td cc ext st infile = .ok st') :
    ∀ g ∈ st'.fastqfiles, arityOk g := by
  unfold csfastaBranch at h
  split at h
  · obtain ⟨base, hb, h⟩ := exbind_ok h
    dsimp only at h
    split at h
    · exact (exthrow_ne_ok h).elim
    · obtain ⟨s1, h1, h⟩ := exbind_ok h
      obtain ⟨s2, h2, h⟩ := exbind_ok h
      have hh := expure_ok h
      subst hh
      intro g hg
      rcases List.mem_append.1 hg with hg | hg
      · exact hst g hg
      · simp at hg
        subst hg
        simp [arityOk]
  · obtain ⟨base, hb, h⟩ := exbind_ok h
    obtain ⟨stmt, hs, h⟩ := exbind_ok h
    rw [fmt_csConvert_err] at hs
    cases hs

theorem csfastaF3Branch_arity (env : Env) (cfg : MapperCfg) (td cc ext : String)
    (st : PreState) (infile : String) (st' : PreState)
    (hst : ∀ g ∈ st.fastqfiles, arityOk g)
    (h : csfastaF3Branch env cfg td cc ext st infile = .ok st') :
    ∀ g ∈ st'.fastqfiles, arityOk g := by
  unfold csfastaF3Branch at h
  split at h
  · obtain ⟨bn, hb, h⟩ := exbind_ok h
    obtain ⟨p, hp, h⟩ := exbind_ok h
    rcases p with ⟨stmts, fgroup⟩
    have hlen := f3_fold_length env bn cc td st.track ext _ _ _ hp
    dsimp only at h
    have hh := expure_ok h
    subst hh
    intro g hg
    rcases List.mem_append.1 hg with hg | hg
    · exact hst g hg
    · simp at hg
      subst hg
      exact Or.inr (Or.inr (by simpa using hlen))
  · obtain ⟨base, hb, h⟩ := exbind_ok h
    obtain ⟨stmt, hs, h⟩ := exbind_ok h
    have hh := expure_ok h
    subst hh
    intro g hg
    rcases List.mem_append.1 hg with hg | hg
    · exact hst g hg
    · simp at hg
      subst hg
      simp [arityOk]

theorem fastq1Branch_arity (env : Env) (td outfile cc ext : String)
    (st : PreState) (infile : String) (st' : PreState)
    (hst : ∀ g ∈ st.fastqfiles, arityOk g)
    (h : fastq1Branch env td outfile cc ext st infile = .ok st') :
    ∀ g ∈ st'.fastqfiles, arityOk g := by
  unfold fastq1Branch at h
  obtain ⟨bn, hb, h⟩ := exbind_ok h
  dsimp only at h
  split at h
  · exact (exthrow_ne_ok h).elim
  · split at h
    · obtain ⟨stmt, hs, h⟩ := exbind_ok h
      have hh := expure_ok h
      subst hh
      intro g hg
      rcases List.mem_append.1 hg with hg | hg
      · exact hst g hg
      · simp at hg
        subst hg
        simp [arityOk]
    · have hh := expure_ok h
      subst hh
      intro g hg
      rcases List.mem_append.1 hg with hg | hg
      · exact hst g hg
      · simp at hg
        subst hg
        simp [arityOk]

theorem processInfile_arity (env : Env) (cfg : MapperCfg)
    (td outfile cc ext : String)
    (hsra : ∀ p, (env.sraPeek p).1.length = 1 ∨ (env.sraPeek p).1.length = 2)
    (st : PreState) (infile : String) (st' : PreState)
    (hst : ∀ g ∈ st.fastqfiles, arityOk g)
    (h : processInfile env cfg td outfile cc ext st infile = .ok st') :
    ∀ g ∈ st'.fastqfiles, arityOk g := by
  unfold processInfile at h
  split at h
  · exact exportBranch_arity td cc ext st infile st' hst h
  · split at h
    · exact faBranch_arity td cc st infile st' hst h
    · split at h
      · exact sraBranch_arity env cfg td outfile cc ext st infile st'
          (hsra infile) hst h
      · split at h
        · exact fastqBranch_arity env cfg td outfile cc ext st infile st' hst h
        · split at h
          · exact csfastaBranch_arity env cfg td cc ext st infile st' hst h
          · split at h
            · exact csfastaF3Branch_arity env cfg td cc ext st infile st' hst h
            · split at h
              · exact fastq1Branch_arity env td outfile cc ext st infile st' hst h
              · exact (exthrow_ne_ok h).elim

/-- C2 (amended): every file group a successful `preprocess` (the
normalizer) returns has arity 1, 2 or 4 individually, provided every sra
archive peeked at holds one or two files; but `preprocess` performs no
cross-group arity check and never raises the arity-mismatch error — that
check happens later, in each strategy align phase (see the
counterexample). -/
theorem c2_normalize_group_arities (env : Env) (cfg : MapperCfg)
    (tmpdir_fastq : String) (infiles : List String) (outfile stmt : String)
    (groups : List (List String)) (dt : String)
    (hsra : ∀ p, (env.sraPeek p).1.length = 1 ∨ (env.sraPeek p).1.length = 2)
    (h : preprocess env cfg tmpdir_fastq infiles outfile = .ok (stmt, groups, dt)) :
    ∀ g ∈ groups, g.length = 1 ∨ g.length = 2 ∨ g.length = 4 := by
  unfold preprocess at h
  split at h
  · exact (exthrow_ne_ok h).elim
  · dsimp only at h
    obtain ⟨st, hfold, h⟩ := exbind_ok h
    split at h
    · exact (exthrow_ne_ok h).elim
    · have hh := expure_ok h
      rw [Prod.mk.injEq, Prod.mk.injEq] at hh
      obtain ⟨h1, h2, h3⟩ := hh
      subst h2
      exact foldlM_invariant (fun s => ∀ g ∈ s.fastqfiles, arityOk g)
        (processInfile env cfg tmpdir_fastq outfile
          (if cfg.compress then "| gzip" else "")
          (if cfg.compress then ".gz" else ""))
        (fun s x s' hs hstep =>
          processInfile_arity env cfg tmpdir_fastq outfile _ _ hsra s x s' hs hstep)
        infiles _ st (by intro g hg; cases hg) hfold

/-- Witness for C2: the amended theorem applied to a concrete single-file
input, at the concrete group it returns. -/
theorem c2_normalize_group_arities_witness :
    (["a.fastq.gz"] : List String).length = 1 ∨
      (["a.fastq.gz"] : List String).length = 2 ∨
      (["a.fastq.gz"] : List String).length = 4 :=
  c2_normalize_group_arities envStd {} "/tmp/t" ["a.fastq.gz"] "out.bam"
    "mkdir -p /tmp/t;" [["a.fastq.gz"]] "fastq"
    (fun _ => Or.inl rfl) (by decide) ["a.fastq.gz"] (by decide)

/-- Counterexample to C2 as stated: `preprocess` happily returns a
mixed-arity read set (one arity-1 group and one arity-2 group) instead of
rejecting it with the arity-mismatch error. -/
theorem c2_counterexample :
    preprocess envStd {} "/tmp/t" ["a.fastq.gz", "b.fastq.1.gz"] "sample.bam" =
      .ok ("mkdir -p /tmp/t;",
        [["a.fastq.gz"], ["b.fastq.1.gz", "b.fastq.2.gz"]], "fastq") ∧
    List.map List.length [["a.fastq.gz"], ["b.fastq.1.gz", "b.fastq.2.gz"]] =
      [1, 2] := by
  exact ⟨by decide, by decide⟩

/-- C6 (amended): the cleanup fragment is always the final phase of a
successful `build()` — the joined plan ends with the barrier followed by
the cleanup fragment — and the base cleanup removes exactly the fastq
temporary directory (`rm -rf tmpdir_fastq;`), nothing else.  (The
counterexample shows the aligner working directory recorded by
`BWA.mapper` is a sibling path this fragment does not cover.) -/
theorem c6_cleanup_is_final_phase :
    (∀ pre mp post cl s, buildCore pre mp post cl = .ok s →
      endsWithS s (" checkpoint; " ++ cl) = true) ∧
    (∀ td, mapperCleanup td = "rm -rf " ++ td ++ ";") := by
  constructor
  · intro pre mp post cl s h
    unfold buildCore at h
    split_ifs at h
    rw [Except.ok.injEq] at h
    subst h
    rw [interc4]
    have hassoc :
        pre ++ " checkpoint; " ++ mp ++ " checkpoint; " ++ post ++
            " checkpoint; " ++ cl =
          (pre ++ " checkpoint; " ++ mp ++ " checkpoint; " ++ post) ++
            (" checkpoint; " ++ cl) := by
      simp [String.append_assoc]
    rw [hassoc]
    exact endsWithS_append _ _
  · intro td
    rfl

/-- Witness for C6: the final-phase half applied to concrete fragments. -/
theorem c6_cleanup_is_final_phase_witness :
    endsWithS "a; checkpoint; b; checkpoint;  checkpoint; rm -rf /t;"
      (" checkpoint; " ++ "rm -rf /t;") = true :=
  c6_cleanup_is_final_phase.1 "a;" "b;" "" "rm -rf /t;" _ (by decide)

/-- Counterexample to C6 as stated: on a successful BWA build the plan
does end with the cleanup fragment, but that fragment removes only
`/tmp/job1`; the aligner working directory `/tmp/job1bwa` recorded during
the align phase is a sibling path (string concatenation, not a
subdirectory), is not under the removed tree and is not named by the
cleanup fragment. -/
theorem c6_counterexample :
    (buildBWA envStd false false false "/tmp/job1" ["b.fastq.1.gz"]
        "sample.bam").toOption.map
      (fun s => endsWithS s (" checkpoint; rm -rf /tmp/job1;")) = some true ∧
    (bwaMapper false "fastq" "/tmp/job1" [["b.fastq.1.gz", "b.fastq.2.gz"]]
        "sample.bam").toOption.map Prod.snd = some "/tmp/job1bwa" ∧
    mapperCleanup "/tmp/job1" = "rm -rf /tmp/job1;" ∧
    isPathPrefix "/tmp/job1" "/tmp/job1bwa" = false ∧
    containsSub (mapperCleanup "/tmp/job1") "/tmp/job1bwa" = false := by
  exact ⟨by decide, by decide, rfl, by decide, by decide⟩

/-- C7 (confirmed): `Sailfish.mapper` (strategy C, supporting arities 1
and 2) raises `ValueError: incorrect number of input files` — the
realization of `UnsupportedArity` — for every uniform arity outside
`{1, 2}`, returning no fragment. -/
theorem c7_sailfish_rejects_unsupported_arity
    (strand orient threads outfile : String) (g : List String)
    (gs : List (List String)) (n : Nat)
    (hall : ∀ x ∈ g :: gs, x.length = n) (h1 : n ≠ 1) (h2 : n ≠ 2) :
    sailfishMapper strand orient threads (g :: gs) outfile =
      .error (.valueError "incorrect number of input files") := by
  have hmap : ∀ x ∈ (g :: gs).map (fun y => y.length), x = n := by
    intro x hx
    obtain ⟨y, hy, rfl⟩ := List.mem_map.1 hx
    exact hall y hy
  have hmx : ((g :: gs).map (fun y => y.length)).foldl Nat.max 0 = n := by
    rw [foldl_max_all n _ _ hmap (by simp)]
    exact Nat.max_eq_right (Nat.zero_le n)
  have hmn : ((g :: gs).map (fun y => y.length)).foldl Nat.min g.length = n := by
    rw [foldl_min_all n _ _ hmap (by simp), hall g (List.mem_cons_self _ _)]
    exact Nat.min_self n
  unfold sailfishMapper
  rw [exbind_eq_ok (show fmt "sailfish quant -i %%(index)s" [] =
    .ok "sailfish quant -i %(index)s" from by decide)]
  dsimp only
  rw [hmx, hmn]
  simp only [ne_eq, not_true_eq_false, if_false, ite_false, h1, h2]
  rfl

/-- Witness for C7: arity 4 rejected at a concrete read set. -/
theorem c7_sailfish_rejects_unsupported_arity_witness :
    sailfishMapper "sense" "towards" "4" [["a", "b", "c", "d"]] "out" =
      .error (.valueError "incorrect number of input files") :=
  c7_sailfish_rejects_unsupported_arity "sense" "towards" "4" "out"
    ["a", "b", "c", "d"] [] 4 (by decide) (by decide) (by decide)

/-- C8 (confirmed): whenever the file groups handed to the BWA align
phase do not all share one arity, `BWA.mapper` raises the arity-mismatch
`ValueError` before building any alignment fragment; and at the build
level, a job mixing an arity-1 and an arity-2 group fails with that error
during `build()` — only command text is ever constructed, so no external
process is involved. -/
theorem c8_mixed_arity_raises :
    (∀ (compress : Bool) (datatype tmpdir_fastq outfile : String)
        (g : List String) (gs : List (List String)) (g1 g2 : List String),
        g1 ∈ g :: gs → g2 ∈ g :: gs → g1.length ≠ g2.length →
        bwaMapper compress datatype tmpdir_fastq (g :: gs) outfile =
          .error (.valueError "mixing single and paired-ended data not possible.")) ∧
    buildBWA envStd false false false "/tmp/t" ["a.fastq.gz", "b.fastq.1.gz"]
        "sample.bam" =
      .error (.valueError "mixing single and paired-ended data not possible.") := by
  constructor
  · intro compress datatype td outfile g gs g1 g2 hg1 hg2 hlen
    have hne : ((g :: gs).map (fun y => y.length)).foldl Nat.max 0 ≠
        ((g :: gs).map (fun y => y.length)).foldl Nat.min g.length := by
      intro heq
      have a1 := le_foldl_max ((g :: gs).map (fun y => y.length)) 0 g1.length
        (List.mem_map_of_mem _ hg1)
      have a2 := le_foldl_max ((g :: gs).map (fun y => y.length)) 0 g2.length
        (List.mem_map_of_mem _ hg2)
      have b1 := foldl_min_le ((g :: gs).map (fun y => y.length)) g.length g1.length
        (List.mem_map_of_mem _ hg1)
      have b2 := foldl_min_le ((g :: gs).map (fun y => y.length)) g.length g2.length
        (List.mem_map_of_mem _ hg2)
      omega
    unfold bwaMapper
    dsimp only
    rw [if_pos hne]
    rfl
  · decide

/-- Witness for C8: the universal half applied to one arity-1 and one
arity-2 group. -/
theorem c8_mixed_arity_raises_witness :
    bwaMapper false "fastq" "/tmp/t" [["a"], ["b", "c"]] "sample.bam" =
      .error (.valueError "mixing single and paired-ended data not possible.") :=
  c8_mixed_arity_raises.1 false "fastq" "/tmp/t" "sample.bam"
    ["a"] [["b", "c"]] ["a"] ["b", "c"] (by decide) (by decide) (by decide)

/-- C9 (confirmed): on a paired (arity-2) read set the BWA align fragment
is a two-pass alignment — two `bwa aln` invocations, one per mate list,
merged by one `bwa sampe` — and every uniform arity outside `{1, 2}` is
rejected with the unexpected-number `ValueError`. -/
theorem c9_bwa_paired_two_pass :
    ((bwaMapper false "fastq" "/tmp/t" [["b.fastq.1.gz", "b.fastq.2.gz"]]
        "sample.bam").toOption.map
      (fun p => (countOccS "bwa aln" p.1, countOccS "bwa sampe" p.1)) =
      some (2, 1)) ∧
    (∀ (compress : Bool) (datatype tmpdir_fastq outfile : String)
        (g : List String) (gs : List (List String)) (n : Nat),
        (∀ x ∈ g :: gs, x.length = n) → n ≠ 1 → n ≠ 2 →
        endsWithS (basename outfile) ".bam" = true →
        bwaMapper compress datatype tmpdir_fastq (g :: gs) outfile =
          .error (.valueError
            ("unexpected number read files to map: " ++ toString n ++ " "))) := by
  constructor
  · decide
  · intro compress datatype td outfile g gs n hall h1 h2 hb
    have hmap : ∀ x ∈ (g :: gs).map (fun y => y.length), x = n := by
      intro x hx
      obtain ⟨y, hy, rfl⟩ := List.mem_map.1 hx
      exact hall y hy
    have hmx : ((g :: gs).map (fun y => y.length)).foldl Nat.max 0 = n := by
      rw [foldl_max_all n _ _ hmap (by simp)]
      exact Nat.max_eq_right (Nat.zero_le n)
    have hmn : ((g :: gs).map (fun y => y.length)).foldl Nat.min g.length = n := by
      rw [foldl_min_all n _ _ hmap (by simp), hall g (List.mem_cons_self _ _)]
      exact Nat.min_self n
    have hsnip : snip (basename outfile) ".bam" =
        .ok ((basename outfile).dropRight ".bam".length) := by
      simp [snip, hb]
    unfold bwaMapper
    dsimp only
    rw [hmx, hmn]
    simp only [ne_eq, not_true_eq_false, if_false, ite_false]
    rw [exbind_eq_ok hsnip]
    simp [h1, h2, throw, throwThe, MonadExceptOf.throw]

/-- Witness for C9: the universal half applied to a concrete arity-3 read
set. -/
theorem c9_bwa_paired_two_pass_witness :
    bwaMapper false "fastq" "/tmp/t" [["a", "b", "c"]] "sample.bam" =
      .error (.valueError "unexpected number read files to map: 3 ") :=
  c9_bwa_paired_two_pass.2 false "fastq" "/tmp/t" "sample.bam"
    ["a", "b", "c"] [] 3 (by decide) (by decide) (by decide) (by decide)

theorem fastQcStep_nogroup_err (c : Option String) (o of : String)
    (acc : List String) (x : String) :
    fastQcStep true c o of acc x = .error (.keyError "contaminats") := by
  cases c <;> rfl

theorem fastqc_inner_err (c : Option String) (o of : String)
    (x : String) (rest : List String) (acc : List String) :
    List.foldlM (fastQcStep true c o of) acc (x :: rest) =
      .error (.keyError "contaminats") := by
  rw [List.foldlM_cons, fastQcStep_nogroup_err]
  rfl

theorem fastqc_nogroup_fold_err (c : Option String) (o of : String) :
    ∀ (infiles : List (List String)) (acc : List String),
    (infiles.any fun g => ¬ g.isEmpty) = true →
    List.foldlM (fun acc f => List.foldlM (fastQcStep true c o of) acc f)
        acc infiles =
      .error (.keyError "contaminats") := by
  intro infiles
  induction infiles with
  | nil => intro acc h; simp at h
  | cons g gs ih =>
    intro acc h
    rw [List.foldlM_cons]
    cases g with
    | nil =>
      rw [List.foldlM_nil, pure_bind]
      apply ih
      simpa using h
    | cons x rest =>
      rw [fastqc_inner_err]
      rfl

/-- C10 (confirmed): with the `nogroup` option, `FastQc.mapper` fills a
template whose final placeholder names `contaminats`, which is not a local
of the source function, so for every input holding at least one file the
fragment construction raises `KeyError` and no fragment is produced. -/
theorem c10_fastqc_nogroup_keyerror (contaminants : Option String)
    (outdir outfile : String) (infiles : List (List String))
    (h : (infiles.any fun g => ¬ g.isEmpty) = true) :
    fastQcMapper true contaminants outdir infiles outfile =
      .error (.keyError "contaminats") := by
  unfold fastQcMapper
  rw [fastqc_nogroup_fold_err contaminants outdir outfile infiles [] h]
  rfl

/-- Witness for C10: the nogroup error at a concrete one-group input. -/
theorem c10_fastqc_nogroup_keyerror_witness :
    fastQcMapper true none "." [["a.fastq.gz"]] "out" =
      .error (.keyError "contaminats") :=
  c10_fastqc_nogroup_keyerror none "." "out" [["a.fastq.gz"]] (by decide)
